import Mathlib

/-!
Shallow embedding of the stacker binary serialization layer (src/pack.rs and
src/unpack.rs). Bytes are natural numbers below 256; a byte sink or source is a
list of bytes. Decoding is modelled against a byte-slice source, whose read
calls never fail and whose read_exact reports an unexpected-EOF I/O error when
too few bytes remain, matching the std behaviour for slices. Encoding is
modelled both as the bytes produced through the Vec sink of pack_to_vec and,
where a claim needs it, against an arbitrary per-call-capped sink.
-/

namespace Stacker

/-- Bytes are natural numbers in the range 0..255; sources and sinks are lists. -/
abbrev Byte := Nat

/-- Model of the io errors a byte-slice source can produce: read_exact on a
slice holding too few bytes reports an unexpected-EOF error. -/
inductive IOErr where
  | unexpectedEof
deriving DecidableEq

/-- Model of the Error enum of unpack.rs (lines 34-39): IO carrying io::Error,
UTF8 carrying FromUtf8Error (which retains the rejected byte vector, as in std),
and Custom carrying an opaque boxed cause supplied by higher layers; no decoder
in this crate constructs the Custom variant. -/
inductive UnpackError where
  | ioError (cause : IOErr)
  | utf8Error (bytes : List Byte)
  | custom
deriving DecidableEq

/-- Constructor tags of UnpackError, used to speak about the set of failure kinds. -/
inductive ErrorKind where
  | ioKind
  | utf8Kind
  | customKind
deriving DecidableEq

/-- Kind of a failure value. -/
def UnpackError.kind : UnpackError → ErrorKind
  | .ioError _ => .ioKind
  | .utf8Error _ => .utf8Kind
  | .custom => .customKind

/-- Retrieve the wrapped io cause, as matching on the IO variant does in Rust. -/
def UnpackError.ioCause : UnpackError → Option IOErr
  | .ioError c => some c
  | _ => none

/-- Retrieve the bytes wrapped by the UTF8 variant (FromUtf8Error::into_bytes). -/
def UnpackError.utf8Cause : UnpackError → Option (List Byte)
  | .utf8Error bs => some bs
  | _ => none

/-- Outcome of unpack_from on a byte-slice source: a value together with the
unconsumed remainder of the source, a returned Error, or a panic (the outcome
of Option::unwrap on None, which aborts instead of returning). -/
inductive UnpackResult (α : Type) where
  | ok (value : α) (remaining : List Byte)
  | fail (e : UnpackError)
  | panicked
deriving DecidableEq

/-- Sequencing of decode steps, the question-mark operator of the source. -/
def UnpackResult.bind {α β : Type} :
    UnpackResult α → (α → List Byte → UnpackResult β) → UnpackResult β
  | .ok a rest, f => f a rest
  | .fail e, _ => .fail e
  | .panicked, _ => .panicked

/-- Model of reader.read_exact into an n-byte buffer for a slice source:
yield the first n bytes, or fail with an unexpected-EOF io error. -/
def readExact (n : Nat) (src : List Byte) : UnpackResult (List Byte) :=
  if n ≤ src.length then .ok (src.take n) (src.drop n)
  else .fail (.ioError .unexpectedEof)

/-- to_be_bytes for a w-byte unsigned integer: its base-256 digits, big-endian. -/
def toBeBytes : Nat → Nat → List Byte
  | 0, _ => []
  | w + 1, v => toBeBytes w (v / 256) ++ [v % 256]

/-- from_be_bytes: recombine big-endian base-256 digits. -/
def fromBeBytes (l : List Byte) : Nat :=
  l.foldl (fun acc b => acc * 256 + b) 0

/-- Reinterpret a w-byte unsigned value as two's-complement signed, as
iN::from_be_bytes does for the signed widths. -/
def toSigned (w u : Nat) : Int :=
  if u < 2 ^ (8 * w - 1) then (u : Int) else (u : Int) - 2 ^ (8 * w)

/-- impl Pack for bool (pack.rs lines 32-41): the byte handed to the sink is
0x00 for true and 0xFF for false. The bytes shown are those the Vec sink of
pack_to_vec receives. -/
def packBool (b : Bool) : List Byte :=
  [if b then 0x00 else 0xFF]

/-- impl Pack for u8/u16/u32/u64/u128 (pack.rs, identical bodies merged over the
width w): the buffer handed to the sink is to_be_bytes of the value. The NonZero
unsigned variants pack identically via .get(). -/
def packUInt (w v : Nat) : List Byte :=
  toBeBytes w v

/-- impl Pack for i16/i32/i64/i128: to_be_bytes of the two's-complement pattern. -/
def packInt (w : Nat) (v : Int) : List Byte :=
  toBeBytes w ((v % ((2 : Int) ^ (8 * w))).toNat)

/-- impl Pack for str (pack.rs lines 183-190): the byte length as u32 (hence
mod 2^32) in big-endian, then the raw UTF-8 bytes. A string value is modelled
as its UTF-8 byte list. -/
def packStr (s : List Byte) : List Byte :=
  toBeBytes 4 (s.length % 2 ^ 32) ++ s

/-- impl Pack for [T] (pack.rs lines 192-203): the element count as u32 in
big-endian, then each element's own encoding concatenated in order. -/
def packList {α : Type} (packElem : α → List Byte) (l : List α) : List Byte :=
  toBeBytes 4 (l.length % 2 ^ 32) ++ (l.map packElem).flatten

/-- impl Unpack for bool (unpack.rs lines 57-63): read one byte and return
bytes[0] != 0xFF. -/
def unpackBool (src : List Byte) : UnpackResult Bool :=
  (readExact 1 src).bind fun bs rest => .ok (bs.headD 0x00 != 0xFF) rest

/-- impl Unpack for u8/u16/u32/u64/u128 (unpack.rs, identical bodies merged over
the width w): read_exact w bytes, then from_be_bytes. -/
def unpackUInt (w : Nat) (src : List Byte) : UnpackResult Nat :=
  (readExact w src).bind fun bs rest => .ok (fromBeBytes bs) rest

/-- impl Unpack for NonZeroU8..NonZeroU128 (unpack.rs lines 73-79, 89-95, ...):
read_exact w bytes, then NonZero::new(from_be_bytes bytes).unwrap(). new yields
None exactly when the value is zero, and unwrap on None panics. The carried
value models .get() of the produced NonZero. -/
def unpackNonZeroUInt (w : Nat) (src : List Byte) : UnpackResult Nat :=
  (readExact w src).bind fun bs rest =>
    if fromBeBytes bs = 0 then .panicked else .ok (fromBeBytes bs) rest

/-- impl Unpack for i16/i32/i64/i128: read_exact w bytes, then iN::from_be_bytes. -/
def unpackInt (w : Nat) (src : List Byte) : UnpackResult Int :=
  (readExact w src).bind fun bs rest => .ok (toSigned w (fromBeBytes bs)) rest

/-- impl Unpack for NonZeroI16..NonZeroI128: NonZero::new(..).unwrap(), which
panics when the decoded pattern is zero. -/
def unpackNonZeroInt (w : Nat) (src : List Byte) : UnpackResult Int :=
  (readExact w src).bind fun bs rest =>
    if toSigned w (fromBeBytes bs) = 0 then .panicked
    else .ok (toSigned w (fromBeBytes bs)) rest

/-- Decidable range test on bytes, a helper for the UTF-8 table. -/
def inRange (lo hi b : Nat) : Bool :=
  decide (lo ≤ b) && decide (b ≤ hi)

/-- Modelled from the spec: the UTF-8 validation performed by String::from_utf8
(std, outside this repository) — accepts exactly well-formed UTF-8, rejecting
stray continuation bytes, overlong forms, surrogate code points, and the bytes
0xC0, 0xC1 and 0xF5..0xFF, per the table in the Unicode standard. -/
def utf8Valid : List Byte → Bool
  | [] => true
  | b :: rest =>
    if b ≤ 0x7F then utf8Valid rest
    else if inRange 0xC2 0xDF b then
      match rest with
      | c1 :: r => inRange 0x80 0xBF c1 && utf8Valid r
      | [] => false
    else if b = 0xE0 then
      match rest with
      | c1 :: c2 :: r => inRange 0xA0 0xBF c1 && inRange 0x80 0xBF c2 && utf8Valid r
      | _ => false
    else if b = 0xED then
      match rest with
      | c1 :: c2 :: r => inRange 0x80 0x9F c1 && inRange 0x80 0xBF c2 && utf8Valid r
      | _ => false
    else if inRange 0xE1 0xEF b then
      match rest with
      | c1 :: c2 :: r => inRange 0x80 0xBF c1 && inRange 0x80 0xBF c2 && utf8Valid r
      | _ => false
    else if b = 0xF0 then
      match rest with
      | c1 :: c2 :: c3 :: r =>
        inRange 0x90 0xBF c1 && inRange 0x80 0xBF c2 && inRange 0x80 0xBF c3 && utf8Valid r
      | _ => false
    else if b = 0xF4 then
      match rest with
      | c1 :: c2 :: c3 :: r =>
        inRange 0x80 0x8F c1 && inRange 0x80 0xBF c2 && inRange 0x80 0xBF c3 && utf8Valid r
      | _ => false
    else if inRange 0xF1 0xF3 b then
      match rest with
      | c1 :: c2 :: c3 :: r =>
        inRange 0x80 0xBF c1 && inRange 0x80 0xBF c2 && inRange 0x80 0xBF c3 && utf8Valid r
      | _ => false
    else false

/-- The while-loop of impl Unpack for String (unpack.rs lines 231-241), read
from a byte-slice source. Each reader.read(&mut buffer) copies
min 512 src.length bytes into the front of the 512-byte buffer — the tail of
the buffer keeps its previous contents — and the returned read count is
discarded, exactly as the source discards _read. When len exceeds 512 the whole
buffer is appended and len drops by 512, otherwise the first len buffer bytes
are appended and the loop ends. The fuel argument only bounds the number of
iterations; len strictly decreases on every pass, so starting fuel at len never
exhausts it, and when fuel and len reach 0 together both branches return
(acc, src) alike. -/
def stringLoopGo (fuel : Nat) (len : Nat) (src acc buf : List Byte) :
    List Byte × List Byte :=
  match fuel with
  | 0 => (acc, src)
  | fuel + 1 =>
    if len = 0 then (acc, src)
    else
      let k := min 512 src.length
      let buf2 := src.take k ++ buf.drop k
      let src2 := src.drop k
      if 512 < len then
        stringLoopGo fuel (len - 512) src2 (acc ++ buf2) buf2
      else
        (acc ++ buf2.take len, src2)

/-- impl Unpack for String (unpack.rs lines 225-245): read a u32 length, run
the 512-byte intermediate-buffer loop until len is exhausted, then validate the
collected bytes as UTF-8; invalid bytes produce the UTF8 error retaining them. -/
def unpackString (src : List Byte) : UnpackResult (List Byte) :=
  (unpackUInt 4 src).bind fun len rest =>
    let out := stringLoopGo len len rest [] (List.replicate 512 0x00)
    if utf8Valid out.1 then .ok out.1 out.2 else .fail (.utf8Error out.1)

/-- The element loop of impl Unpack for Vec T (unpack.rs lines 252-254):
decode n further elements, pushing each onto the accumulator. -/
def unpackVecGo {α : Type} (unpackElem : List Byte → UnpackResult α) :
    Nat → List Byte → List α → UnpackResult (List α)
  | 0, src, acc => .ok acc src
  | n + 1, src, acc =>
    match unpackElem src with
    | .ok x rest => unpackVecGo unpackElem n rest (acc ++ [x])
    | .fail e => .fail e
    | .panicked => .panicked

/-- impl Unpack for Vec T (unpack.rs lines 247-258): read a u32 count, then
decode exactly that many elements in order by delegating to the element decoder. -/
def unpackVec {α : Type} (unpackElem : List Byte → UnpackResult α)
    (src : List Byte) : UnpackResult (List α) :=
  (unpackUInt 4 src).bind fun len rest => unpackVecGo unpackElem len rest []

/-- io::Write::write for a sink that accepts at most cap bytes per call: the
accepted bytes are appended to the sink state and the call returns
Ok(number accepted). -/
def capWrite (cap : Nat) (st buf : List Byte) : List Byte × Nat :=
  (st ++ buf.take cap, min cap buf.length)

/-- io::Write::write for Vec u8, the sink of pack_to_vec: every offered byte
is accepted. -/
def vecWrite (st buf : List Byte) : List Byte × Nat :=
  (st ++ buf, buf.length)

/-- impl Pack for the fixed-width unsigned primitives over an arbitrary sink
(pack.rs lines 71-76 and the sibling impls): build the to_be_bytes buffer and
return the result of a single writer.write(&buffer) call unchecked. -/
def packUIntInto (write : List Byte → List Byte → List Byte × Nat)
    (st : List Byte) (w v : Nat) : List Byte × Nat :=
  write st (toBeBytes w v)

/-- A w-byte encoding really has w bytes. -/
theorem toBeBytes_length (w v : Nat) : (toBeBytes w v).length = w := by
  induction w generalizing v with
  | zero => rfl
  | succ w ih => simp [toBeBytes, ih]

/-- Appending one low digit to a big-endian encoding. -/
theorem fromBeBytes_append_digit (l : List Byte) (b : Byte) :
    fromBeBytes (l ++ [b]) = fromBeBytes l * 256 + b := by
  simp [fromBeBytes, List.foldl_append]

/-- from_be_bytes inverts to_be_bytes up to the width's modulus. -/
theorem fromBeBytes_toBeBytes (w v : Nat) :
    fromBeBytes (toBeBytes w v) = v % 256 ^ w := by
  induction w generalizing v with
  | zero => simp [toBeBytes, fromBeBytes, Nat.mod_one]
  | succ w ih =>
    rw [toBeBytes, fromBeBytes_append_digit, ih, pow_succ', Nat.mod_mul]
    ring

/-- A fixed-width unsigned decode consumes exactly its width and inverts the
encode, leaving any trailing bytes unread. -/
theorem unpackUInt_packUInt (w v : Nat) (rest : List Byte) :
    unpackUInt w (packUInt w v ++ rest) = .ok (v % 256 ^ w) rest := by
  have hlen : (toBeBytes w v).length = w := toBeBytes_length w v
  have hge : w ≤ (toBeBytes w v).length + rest.length := by
    rw [hlen]
    exact Nat.le_add_right w rest.length
  simp only [unpackUInt, packUInt, readExact, List.length_append]
  rw [if_pos hge, List.take_left' hlen, List.drop_left' hlen]
  simp only [UnpackResult.bind, fromBeBytes_toBeBytes]

/-- When the source holds exactly the declared payload, the string loop
reconstructs it whole and consumes the source: every read copies
min 512 src.length fresh bytes into the buffer front and the retained stale
tail is never taken. -/
theorem stringLoopGo_exact (fuel : Nat) :
    ∀ (len : Nat) (src acc buf : List Byte), len ≤ fuel → src.length = len →
      buf.length = 512 → stringLoopGo fuel len src acc buf = (acc ++ src, []) := by
  induction fuel with
  | zero =>
    intro len src acc buf hf hs _
    have hlen : len = 0 := Nat.le_zero.mp hf
    have hsrc : src = [] := List.eq_nil_of_length_eq_zero (hlen ▸ hs)
    simp [stringLoopGo, hsrc]
  | succ fuel ih =>
    intro len src acc buf hf hs hb
    rw [stringLoopGo]
    by_cases h0 : len = 0
    · have hsrc : src = [] := List.length_eq_zero.mp (h0 ▸ hs)
      simp [h0, hsrc]
    · rw [if_neg h0]
      by_cases hbig : 512 < len
      · have hk : min 512 src.length = 512 := by omega
        have hdropbuf : buf.drop 512 = [] := List.drop_eq_nil_of_le (by omega)
        have htakelen : (src.take 512).length = 512 := by
          rw [List.length_take]
          omega
        simp only [hk, hdropbuf, List.append_nil, if_pos hbig]
        rw [ih (len - 512) (src.drop 512) (acc ++ src.take 512) (src.take 512)
          (by omega) (by rw [List.length_drop]; omega) htakelen]
        rw [List.append_assoc, List.take_append_drop]
      · have hk : min 512 src.length = len := by omega
        have htake : src.take len = src := by
          rw [← hs, List.take_length]
        have htake2 : (src.take len ++ buf.drop len).take len = src := by
          rw [List.take_append_of_le_length (by rw [List.length_take]; omega)]
          rw [List.take_take, min_self, htake]
        have hdrop : src.drop len = [] := List.drop_eq_nil_of_le (by omega)
        simp only [hk, if_neg hbig, htake2, hdrop]

/-- Decoding a packed string from exactly its own bytes round-trips: the
512-byte chunking is harmless when no trailing data follows. -/
theorem unpackString_packStr (s : List Byte) (h32 : s.length < 2 ^ 32)
    (hv : utf8Valid s = true) : unpackString (packStr s) = .ok s [] := by
  have hmod : s.length % 2 ^ 32 = s.length := Nat.mod_eq_of_lt h32
  have h256 : (256 : Nat) ^ 4 = 2 ^ 32 := by norm_num
  have h1 : unpackUInt 4 (packStr s) = .ok s.length s := by
    have h := unpackUInt_packUInt 4 s.length s
    rw [packUInt] at h
    rw [packStr, hmod, h, h256, hmod]
  simp only [unpackString, h1, UnpackResult.bind]
  rw [stringLoopGo_exact s.length s.length s [] (List.replicate 512 0x00)
    (le_refl _) rfl (by rw [List.length_replicate])]
  simp only [List.nil_append, hv, if_pos]

/-- Claim C1 (failing evaluation): the round-trip property decode(encode(v)) = v
fails on the code for the sequence-of-strings value whose elements are the
one-byte strings 0x61 and 0x62. Decoding its own encoding aborts with an I/O
error: the String decoder reads the payload in 512-byte chunks and discards the
read count, so the first element's decode consumes the whole remaining stream
and the second element finds an exhausted source. -/
theorem roundTrip_vecString_failing_eval :
    unpackVec unpackString (packList packStr [[0x61], [0x62]])
      = .fail (.ioError .unexpectedEof) := by
  decide

/-- Claim C2 (failing evaluation): decoding the all-zero byte pattern into each
NonZero integer width panics — NonZero::new(0).unwrap() applied to None — and
does not return an error of any kind, while the plain integer of the same width
decodes the same bytes to zero. -/
theorem nonZero_zero_panics_eval :
    unpackNonZeroUInt 1 (List.replicate 1 0x00) = .panicked
      ∧ unpackNonZeroUInt 2 (List.replicate 2 0x00) = .panicked
      ∧ unpackNonZeroUInt 4 (List.replicate 4 0x00) = .panicked
      ∧ unpackNonZeroUInt 8 (List.replicate 8 0x00) = .panicked
      ∧ unpackNonZeroUInt 16 (List.replicate 16 0x00) = .panicked
      ∧ unpackNonZeroInt 2 (List.replicate 2 0x00) = .panicked
      ∧ unpackNonZeroInt 4 (List.replicate 4 0x00) = .panicked
      ∧ unpackNonZeroInt 8 (List.replicate 8 0x00) = .panicked
      ∧ unpackNonZeroInt 16 (List.replicate 16 0x00) = .panicked
      ∧ unpackUInt 1 (List.replicate 1 0x00) = .ok 0 []
      ∧ unpackUInt 4 (List.replicate 4 0x00) = .ok 0 []
      ∧ unpackInt 2 (List.replicate 2 0x00) = .ok 0 []
      ∧ unpackInt 16 (List.replicate 16 0x00) = .ok 0 [] := by
  decide

/-- Claim C3 (counterexample): the claim posits an invariant-violation failure
kind distinct from the source (I/O) kind, the encoding-validity (UTF-8) kind
and the opaque custom kind; the decoder's error type has no such fourth kind —
its constructor tags are exhausted by ioKind, utf8Kind and customKind. -/
theorem errorKind_no_invariant_kind :
    ¬ ∃ k : ErrorKind, k ≠ ErrorKind.ioKind ∧ k ≠ ErrorKind.utf8Kind
      ∧ k ≠ ErrorKind.customKind := by
  rintro ⟨k, h1, h2, h3⟩
  cases k
  · exact h1 rfl
  · exact h2 rfl
  · exact h3 rfl

/-- Claim C3 (amended): the decoder's error type is a closed set of exactly
three failure kinds — source (I/O) failure, encoding-validity (UTF-8) failure,
and an opaque wrapped custom cause for higher layers; there is no
invariant-violation kind. The I/O and UTF-8 kinds retain the underlying cause
losslessly: the original io error and the bytes rejected by UTF-8 validation
are retrievable from the reported failure. -/
theorem error_three_kinds_lossless :
    (∀ e : UnpackError, e.kind = ErrorKind.ioKind ∨ e.kind = ErrorKind.utf8Kind
        ∨ e.kind = ErrorKind.customKind)
      ∧ (∀ c : IOErr, (UnpackError.ioError c).ioCause = some c)
      ∧ (∀ bs : List Byte, (UnpackError.utf8Error bs).utf8Cause = some bs) := by
  refine ⟨fun e => ?_, fun c => rfl, fun bs => rfl⟩
  cases e
  · exact Or.inl rfl
  · exact Or.inr (Or.inl rfl)
  · exact Or.inr (Or.inr rfl)

/-- Claim C4 (failing evaluation): a fixed-width decode on a source with too
few bytes does fail with the source-failure kind, and so does a sequence whose
source runs out mid-element; but a String decode whose source lacks the
promised payload does not fail — it fabricates NUL bytes from the
zero-initialized 512-byte intermediate buffer and returns them as a value. -/
theorem truncated_source_eval :
    unpackUInt 4 [0x00, 0x02] = .fail (.ioError .unexpectedEof)
      ∧ unpackVec (unpackUInt 1) [0x00, 0x00, 0x00, 0x03, 0x01, 0x02]
          = .fail (.ioError .unexpectedEof)
      ∧ unpackString [0x00, 0x00, 0x00, 0x03] = .ok [0x00, 0x00, 0x00] [] := by
  decide

/-- Claim C5 (failing evaluation): decoding the string with payload 0x61 from a
source carrying one trailing byte consumes the trailing byte as well — the
chunked read takes min 512 available bytes from the source — leaving nothing
unconsumed, whereas a fixed-width decode leaves trailing bytes in place. -/
theorem string_overconsumes_eval :
    unpackString [0x00, 0x00, 0x00, 0x01, 0x61, 0x62] = .ok [0x61] []
      ∧ unpackUInt 2 [0x00, 0x02, 0x63] = .ok 2 [0x63] := by
  decide

/-- Claim C6: packing false yields the byte 0xFF and packing true the byte
0x00; unpacking returns false exactly for the byte 0xFF and true for every
other byte value — the decoder tests equality against the false pattern only —
with the concrete bytes 0x01 and 0x7A decoding to true. -/
theorem bool_asymmetry :
    packBool false = [0xFF] ∧ packBool true = [0x00]
      ∧ (∀ (b : Byte) (rest : List Byte),
          unpackBool (b :: rest) = .ok (b != 0xFF) rest)
      ∧ unpackBool [0xFF] = .ok false [] ∧ unpackBool [0x01] = .ok true []
      ∧ unpackBool [0x7A] = .ok true [] := by
  refine ⟨rfl, rfl, fun b rest => ?_, by decide, by decide, by decide⟩
  have h : 1 ≤ (b :: rest).length := by
    rw [List.length_cons]
    exact Nat.le_add_left 1 rest.length
  simp [unpackBool, readExact, h, UnpackResult.bind]

/-- Claim C7: packing a sequence of L elements (L below 2^32, the range of the
u32 prefix) produces the 4-byte big-endian encoding of L followed by exactly
the concatenation of the element encodings, and a string packs as its byte
length followed by its bytes; the three concrete encodings named by the spec
come out byte-exact. -/
theorem length_framing :
    (∀ {α : Type} (packElem : α → List Byte) (l : List α), l.length < 2 ^ 32 →
        packList packElem l = toBeBytes 4 l.length ++ (l.map packElem).flatten)
      ∧ (∀ s : List Byte, s.length < 2 ^ 32 →
          packStr s = toBeBytes 4 s.length ++ s)
      ∧ packStr [0x61, 0x62, 0x63] = [0x00, 0x00, 0x00, 0x03, 0x61, 0x62, 0x63]
      ∧ packList (packUInt 1) [1, 2, 3]
          = [0x00, 0x00, 0x00, 0x03, 0x01, 0x02, 0x03]
      ∧ packInt 4 (-1) = [0xFF, 0xFF, 0xFF, 0xFF] := by
  refine ⟨fun pe l h => ?_, fun s h => ?_, by decide, by decide, by decide⟩
  · rw [packList, Nat.mod_eq_of_lt h]
  · rw [packStr, Nat.mod_eq_of_lt h]

/-- Witness for length_framing at the concrete three-element sequence. -/
theorem length_framing_witness :
    ([1, 2, 3] : List Nat).length < 2 ^ 32
      ∧ packList (packUInt 1) [1, 2, 3]
          = toBeBytes 4 ([1, 2, 3] : List Nat).length
              ++ (([1, 2, 3] : List Nat).map (packUInt 1)).flatten :=
  ⟨by norm_num, length_framing.1 (packUInt 1) [1, 2, 3] (by norm_num)⟩

/-- Claim C8: decoding a string whose 4-byte length prefix declares 3 bytes and
whose payload is 0xFF 0xFE 0xFD fails with the encoding-validity (UTF-8) kind,
retaining the rejected bytes — neither a panic nor a source failure. -/
theorem invalid_utf8_string :
    unpackString [0x00, 0x00, 0x00, 0x03, 0xFF, 0xFE, 0xFD]
        = .fail (.utf8Error [0xFF, 0xFE, 0xFD])
      ∧ (UnpackError.utf8Error [0xFF, 0xFE, 0xFD]).kind = ErrorKind.utf8Kind := by
  exact ⟨by decide, rfl⟩

/-- Claim C9 (failing evaluation): packing the u32 value 2 into a sink that
accepts at most 2 bytes per write call succeeds with count 2, having delivered
only the first two of the four canonical bytes — pack_into returns the result
of a single write call unchecked — while the Vec sink of pack_to_vec receives
all four bytes and the count 4. -/
theorem primitive_partial_write_eval :
    packUIntInto (capWrite 2) [] 4 2 = ([0x00, 0x00], 2)
      ∧ toBeBytes 4 2 = [0x00, 0x00, 0x00, 0x02]
      ∧ packUIntInto vecWrite [] 4 2 = ([0x00, 0x00, 0x00, 0x02], 4) := by
  decide

/-- Claim C10: a string whose 4-byte length prefix decodes to 0 yields the
empty string at once, with the source beyond the prefix left untouched — in
particular the decode succeeds when the source is exhausted right after the
prefix. -/
theorem empty_string_prefix_zero :
    (∀ rest : List Byte,
        unpackString (0x00 :: 0x00 :: 0x00 :: 0x00 :: rest) = .ok [] rest)
      ∧ unpackString [0x00, 0x00, 0x00, 0x00] = .ok [] [] := by
  refine ⟨fun rest => ?_, by decide⟩
  have h4 : 4 ≤ (0x00 :: 0x00 :: 0x00 :: 0x00 :: rest).length := by
    simp [List.length_cons]
  have hz : ∀ (len : Nat) (src acc buf : List Byte),
      stringLoopGo 0 len src acc buf = (acc, src) := fun _ _ _ _ => rfl
  have hnil : utf8Valid [] = true := rfl
  simp only [unpackString, unpackUInt, readExact, if_pos h4, UnpackResult.bind,
    List.take_succ_cons, List.take_zero, List.drop_succ_cons, List.drop_zero]
  norm_num [fromBeBytes, hz, hnil]

end Stacker
